import Mathlib

/-!
Verification of the asynchronous tool-invocation orchestrator
(mcp-app-starter backend): submission endpoint, in-memory operation
registry, background tool-call routine, SSE progress publisher, and the
billing tool server.  Shallow embedding: HTTP handlers and the background
routine become pure functions over an explicit registry state; the
publisher's timer loop becomes a function over the list of registry
snapshots observed at its ticks.
-/

namespace McpApp

/-- A small JSON value model for tool payloads, results and arguments. -/
inductive Json where
  | str (s : String)
  | num (n : Int)
  | bool (b : Bool)
  | null
  | arr (xs : List Json)
  | obj (fields : List (String × Json))

/-- JS property access `j.field` on a parsed JSON object: `none` models
`undefined`. -/
def Json.getField : Json → String → Option Json
  | .obj fields, k => fields.lookup k
  | _, _ => none

/-! ## Input validation (backend/src/schemas.ts)

`CreateInvoiceInput = z.object({ amount: z.number().nonnegative(),
currency: z.string().length(3), customer_email: z.string().email() })`.
Amounts are modelled as integers (the claims only exercise integral
amounts and the sign constraint). -/

/-- The request body of POST /api/invoices (shape of `CreateInvoiceInput`). -/
structure InvoiceReq where
  amount : Int
  currency : String
  customer_email : String
deriving Repr, DecidableEq

/-- Characters zod's email regex allows in the local part:
`[A-Za-z0-9_'+\-\.]`. -/
def isLocalChar (c : Char) : Bool :=
  c.isAlphanum || c = '_' || c = '\x27' || c = '+' || c = '-' || c = '.'

/-- Characters zod's email regex allows as the final local-part character:
`[A-Za-z0-9_+\-]`. -/
def isLocalEndChar (c : Char) : Bool :=
  c.isAlphanum || c = '_' || c = '+' || c = '-'

/-- Does the character list contain two consecutive dots (`(?!.*\.\.)`)? -/
def hasDoubleDot : List Char → Bool
  | '.' :: '.' :: _ => true
  | _ :: rest => hasDoubleDot rest
  | [] => false

/-- Local part: `([A-Za-z0-9_'+\-\.]*)[A-Za-z0-9_+\-]`. -/
def validLocal (cs : List Char) : Bool :=
  match cs.getLast? with
  | none => false
  | some c => isLocalEndChar c && (cs.dropLast).all isLocalChar

/-- A domain label `[A-Za-z0-9][A-Za-z0-9\-]*`. -/
def validLabel (cs : List Char) : Bool :=
  match cs with
  | [] => false
  | c :: rest => (c.isAlphanum) && rest.all (fun d => d.isAlphanum || d = '-')

/-- Split a character list on a separator character (the semantics of JS
`split` / `String.splitOn` for a one-character separator). -/
def splitOnChar (sep : Char) : List Char → List (List Char)
  | [] => [[]]
  | c :: rest =>
      let r := splitOnChar sep rest
      if c = sep then [] :: r
      else
        match r with
        | [] => [[c]]
        | g :: gs => (c :: g) :: gs

/-- Domain: `([A-Za-z0-9][A-Za-z0-9\-]*\.)+[A-Za-z]{2,}` — one or more
labels, then a purely alphabetic TLD of length at least 2. -/
def validDomain (cs : List Char) : Bool :=
  let parts := splitOnChar '.' cs
  match parts.getLast? with
  | none => false
  | some tld =>
      decide (2 ≤ parts.length) &&
      decide (2 ≤ tld.length) && tld.all Char.isAlpha &&
      (parts.dropLast).all validLabel

/-- zod's `z.string().email()` check, per its email regular expression
`^(?!\.)(?!.*\.\.)([A-Za-z0-9_'+\-\.]*)[A-Za-z0-9_+\-]@([A-Za-z0-9][A-Za-z0-9\-]*\.)+[A-Za-z]{2,}$`.
Since `@` occurs in no character class, the string must split as
`local@domain` with exactly one `@`. -/
def validEmail (s : String) : Bool :=
  let cs := s.data
  !decide (cs.head? = some '.') && !hasDoubleDot cs &&
  match splitOnChar '@' cs with
  | [l, d] => validLocal l && validDomain d
  | _ => false

/-- The `CreateInvoiceInput.safeParse` success condition: nonnegative amount,
3-character currency, valid email. -/
def validateInvoice (r : InvoiceReq) : Bool :=
  decide (0 ≤ r.amount) && (r.currency.length == 3) && validEmail r.customer_email

/-! ## Operation registry (the `progress` map in backend/src/index.ts) -/

/-- One registry entry: `{ done: boolean; events: string[]; result?: any }`. -/
structure OpEntry where
  done : Bool
  events : List String
  result : Option Json

/-- The in-memory `progress` map, keyed by operation id.  A JS `Map` is
modelled as an association list: `set` replaces in place or appends. -/
abbrev Registry := List (String × OpEntry)

/-- Lookup `progress.get(id)`. -/
def Registry.getOp (reg : Registry) (id : String) : Option OpEntry :=
  match reg with
  | [] => none
  | (k, e) :: rest => if k = id then some e else Registry.getOp rest id

/-- Update `progress.set(id, e)`: replace the existing binding in place, else
append (JS `Map.set` insertion-order semantics). -/
def Registry.setOp (reg : Registry) (id : String) (e : OpEntry) : Registry :=
  match reg with
  | [] => [(id, e)]
  | (k, e0) :: rest =>
      if k = id then (k, e) :: rest else (k, e0) :: Registry.setOp rest id e

/-- Append `progress.get(id)!.events.push(label)` — appends one event label to an
existing entry (the entry always exists on the code's paths). -/
def Registry.pushEvent (reg : Registry) (id : String) (label : String) : Registry :=
  match Registry.getOp reg id with
  | some e => Registry.setOp reg id { e with events := e.events ++ [label] }
  | none => reg

/-- Finalization `progress.set(opId, { done: true, events:
Array.from(progress.get(opId)!.events), result })`: marks done and stores
the result, keeping a copy of the current event log. -/
def Registry.finalize (reg : Registry) (id : String) (payload : Json) : Registry :=
  match Registry.getOp reg id with
  | some e => Registry.setOp reg id { done := true, events := e.events, result := some payload }
  | none => reg

/-! ## Submission endpoint (POST /api/invoices) -/

/-- The synchronous HTTP response of the submission endpoint. -/
inductive SubmitResp where
  | badRequest (fieldErrors : List String)
  | accepted (opId : String)
deriving DecidableEq

/-- The flattened zod field errors returned with HTTP 400. -/
def fieldErrors (r : InvoiceReq) : List String :=
  (if decide (0 ≤ r.amount) then [] else ["amount: Number must be greater than or equal to 0"]) ++
  (if r.currency.length == 3 then [] else ["currency: String must contain exactly 3 character(s)"]) ++
  (if validEmail r.customer_email then [] else ["customer_email: Invalid email"])

/-- The synchronous part of the POST /api/invoices handler: validate; on
failure answer 400 and leave the registry untouched; on success mint the
entry `{done: false, events: ["received"]}` under the fresh id and answer
202 with the id.  The background routine (`runRoutine`) has not run at
all at this point: its first statement awaits the tool-server connection,
so it suspends before touching the registry. -/
def submit (freshId : String) (body : InvoiceReq) (reg : Registry) :
    SubmitResp × Registry :=
  if validateInvoice body then
    (.accepted freshId, Registry.setOp reg freshId { done := false, events := ["received"], result := none })
  else
    (.badRequest (fieldErrors body), reg)

/-! ## JSON serialization (JS `JSON.stringify`, used by the tool server
to build response text). -/

/-- Escape a string for JSON output (quote and backslash). -/
def jsonEscape (s : String) : String :=
  String.mk (s.data.foldr
    (fun c acc => if c = '"' || c = '\\' then '\\' :: c :: acc else c :: acc) [])

mutual

/-- JS `JSON.stringify` (compact form, as JS produces with one argument). -/
def Json.stringify : Json → String
  | .str s => "\"" ++ jsonEscape s ++ "\""
  | .num n => toString n
  | .bool b => if b then "true" else "false"
  | .null => "null"
  | .arr xs => "[" ++ Json.stringifyList xs ++ "]"
  | .obj fs => "\x7b" ++ Json.stringifyFields fs ++ "\x7d"

/-- Comma-separated serialization of array elements. -/
def Json.stringifyList : List Json → String
  | [] => ""
  | [x] => Json.stringify x
  | x :: y :: xs => Json.stringify x ++ "," ++ Json.stringifyList (y :: xs)

/-- Comma-separated serialization of object fields. -/
def Json.stringifyFields : List (String × Json) → String
  | [] => ""
  | [(k, v)] => "\"" ++ jsonEscape k ++ "\":" ++ Json.stringify v
  | (k, v) :: f :: fs =>
      "\"" ++ jsonEscape k ++ "\":" ++ Json.stringify v ++ "," ++ Json.stringifyFields (f :: fs)

end

/-! ## Billing tool server (servers/billing/src/index.ts) -/

/-- One stored invoice: `{amount, currency, customer_email, status}`. -/
structure Invoice where
  amount : Int
  currency : String
  customer_email : String
  status : String
deriving DecidableEq

/-- The in-memory `invoices` map, keyed by idempotency key. -/
abbrev InvStore := List (String × Invoice)

/-- Lookup `invoices.get(k)` / `invoices.has(k)`. -/
def InvStore.getInv (s : InvStore) (k : String) : Option Invoice :=
  match s with
  | [] => none
  | (k0, v) :: rest => if k0 = k then some v else InvStore.getInv rest k

/-- Update `invoices.set(k, v)` with JS `Map` semantics. -/
def InvStore.setInv (s : InvStore) (k : String) (v : Invoice) : InvStore :=
  match s with
  | [] => [(k, v)]
  | (k0, v0) :: rest =>
      if k0 = k then (k0, v) :: rest else (k0, v0) :: InvStore.setInv rest k v

/-- The `billing.create_invoice` tool handler: if the idempotency key was
seen, return `{invoice_id: key, reused: true}` and leave the store alone;
otherwise store a draft invoice under the key and return
`{invoice_id: key, reused: false}`.  Returns the updated store and the
JSON the handler stringifies into its text content. -/
def create_invoice (store : InvStore) (amount : Int)
    (currency customer_email idempotency_key : String) : InvStore × Json :=
  if (store.getInv idempotency_key).isSome then
    (store, .obj [("invoice_id", .str idempotency_key), ("reused", .bool true)])
  else
    (store.setInv idempotency_key
      { amount := amount, currency := currency,
        customer_email := customer_email, status := "draft" },
     .obj [("invoice_id", .str idempotency_key), ("reused", .bool false)])

/-- The `billing.get_invoice` tool handler: `{error: "NOT_FOUND"}` for a
missing id, else `{invoice: {id, ...inv}}`. -/
def get_invoice (store : InvStore) (invoice_id : String) : Json :=
  match store.getInv invoice_id with
  | none => .obj [("error", .str "NOT_FOUND")]
  | some inv =>
      .obj [("invoice", .obj
        [("id", .str invoice_id), ("amount", .num inv.amount),
         ("currency", .str inv.currency),
         ("customer_email", .str inv.customer_email),
         ("status", .str inv.status)])]

/-! ## Tool responses and the backend's environment -/

/-- One text content item of a tool response (the backend reads only
`.text`). -/
structure TextItem where
  text : String

/-- A `CallToolResult` as the backend consumes it: `content` may be
absent (modelling JS `undefined`). -/
structure ToolResp where
  content : Option (List TextItem)

/-- Wrap a handler's JSON in the MCP text-content envelope
`{content: [{type: "text", text: JSON.stringify(j)}]}`. -/
def toolOk (j : Json) : ToolResp :=
  { content := some [{ text := j.stringify }] }

/-- The awaited external effects of the background routine, as outcomes:
`connect` is `getBillingClient()`, `createCall`/`getCall` are the two
`client.request` tool calls (functions of the arguments the routine
sends), and `parse` is the JS primitive `JSON.parse`.  `.error m` models
a thrown exception whose `message` is `m`. -/
structure Env where
  connect : Except String Unit
  createCall : Json → Except String ToolResp
  getCall : Option Json → Except String ToolResp
  parse : String → Except String Json

/-- Whether the routine's `try` block ran to completion (`success`) or an
exception with message `msg` reached the `catch` (`failed`). -/
inductive RunOutcome where
  | success
  | failed (msg : String)
deriving DecidableEq

/-- JS `e?.message || "unknown"`: an empty message is falsy in JS. -/
def errMsgOr (m : String) : String := if m = "" then "unknown" else m

/-- The catch block's terminal payload `{ error: e?.message || "unknown" }`. -/
def errPayload (m : String) : Json := .obj [("error", .str (errMsgOr m))]

/-- Is a parsed JSON value JS `null` (property access on it throws)? -/
def isJsNull : Json → Bool
  | .null => true
  | _ => false

/-- The arguments of the create call: `{...parsed.data, idempotency_key}`
with `idempotency_key = opId`. -/
def createArgs (req : InvoiceReq) (opId : String) : Json :=
  .obj [("amount", .num req.amount), ("currency", .str req.currency),
        ("customer_email", .str req.customer_email),
        ("idempotency_key", .str opId)]

/-- The background execution routine (the async IIFE of the POST
handler), as the ordered list of registry states after each of its
mutations, plus whether it ended in the `catch`.  Every throw inside the
`try` (connection failure, tool-call failure, missing/empty content,
`JSON.parse` failure, property access on `null`) lands in the `catch`,
which finalizes with `{error: message}`; the function is total, so no
path escapes without finalizing. -/
def runRoutine (opId : String) (req : InvoiceReq) (env : Env) (reg : Registry) :
    List Registry × RunOutcome :=
  match env.connect with
  | .error m => ([Registry.finalize reg opId (errPayload m)], .failed m)
  | .ok _ =>
    let r1 := Registry.pushEvent reg opId "connecting-mcp"
    match env.createCall (createArgs req opId) with
    | .error m => ([r1, Registry.finalize r1 opId (errPayload m)], .failed m)
    | .ok createResp =>
      let r2 := Registry.pushEvent r1 opId "invoice-created"
      match createResp.content with
      | some (item :: _) =>
        match env.parse item.text with
        | .error m => ([r1, r2, Registry.finalize r2 opId (errPayload m)], .failed m)
        | .ok createResult =>
          if isJsNull createResult then
            let m := "Cannot read properties of null"
            ([r1, r2, Registry.finalize r2 opId (errPayload m)], .failed m)
          else
            let invId := createResult.getField "invoice_id"
            match env.getCall invId with
            | .error m => ([r1, r2, Registry.finalize r2 opId (errPayload m)], .failed m)
            | .ok getResp =>
              let r3 := Registry.pushEvent r2 opId "invoice-fetched"
              match getResp.content with
              | none => ([r1, r2, r3, Registry.finalize r3 opId Json.null], .success)
              | some [] =>
                let m := "Cannot read properties of undefined"
                ([r1, r2, r3, Registry.finalize r3 opId (errPayload m)], .failed m)
              | some (g :: _) =>
                match env.parse g.text with
                | .error m => ([r1, r2, r3, Registry.finalize r3 opId (errPayload m)], .failed m)
                | .ok payload => ([r1, r2, r3, Registry.finalize r3 opId payload], .success)
      | _ =>
        let m := "MCP error creating invoice"
        ([r1, r2, Registry.finalize r2 opId (errPayload m)], .failed m)

/-! ## Progress publisher (GET /api/stream/:opId)

The SSE handler writes one `ping`, then runs a 400ms interval; each tick
reads the registry (`if (!p) return;` on a missing entry), writes one
`progress` message, and on `done` additionally writes one `result`
message, clears the interval and ends the response.  The timer loop is
embedded as a function of the registry snapshots observed at successive
ticks; the boolean output is whether the channel was closed by the loop. -/

/-- One SSE message. -/
inductive Msg where
  | ping (t : Int)
  | progress (events : List String) (done : Bool)
  | result (payload : Option Json)

/-- The tick loop: for each snapshot, skip if the id is unknown, else
emit progress; on `done` also emit the result payload, stop the timer and
close. -/
def runTicks (opId : String) : List Registry → List Msg × Bool
  | [] => ([], false)
  | r :: rest =>
    match Registry.getOp r opId with
    | none => runTicks opId rest
    | some p =>
      if p.done then
        ([Msg.progress p.events true, Msg.result p.result], true)
      else
        let rec' := runTicks opId rest
        (Msg.progress p.events false :: rec'.1, rec'.2)

/-- The whole subscription: initial `ping` (with the timestamp `t`), then
the tick loop over the observed snapshots. -/
def subscribe (opId : String) (t : Int) (snaps : List Registry) :
    List Msg × Bool :=
  let ticks := runTicks opId snaps
  (Msg.ping t :: ticks.1, ticks.2)

/-! ## Helper lemmas about the registry and the invoice store -/

theorem getOp_setOp_self (reg : Registry) (id : String) (e : OpEntry) :
    (Registry.setOp reg id e).getOp id = some e := by
  induction reg with
  | nil => simp [Registry.setOp, Registry.getOp]
  | cons kv rest ih =>
      obtain ⟨k, e0⟩ := kv
      by_cases h : k = id <;>
        simp [Registry.setOp, Registry.getOp, h, ih]

theorem getOp_pushEvent_self (reg : Registry) (id label : String) (e : OpEntry)
    (h : reg.getOp id = some e) :
    (Registry.pushEvent reg id label).getOp id =
      some { e with events := e.events ++ [label] } := by
  simp [Registry.pushEvent, h, getOp_setOp_self]

theorem getOp_finalize_self (reg : Registry) (id : String) (p : Json) (e : OpEntry)
    (h : reg.getOp id = some e) :
    (Registry.finalize reg id p).getOp id =
      some { done := true, events := e.events, result := some p } := by
  simp [Registry.finalize, h, getOp_setOp_self]

theorem getInv_setInv_self (s : InvStore) (k : String) (v : Invoice) :
    (InvStore.setInv s k v).getInv k = some v := by
  induction s with
  | nil => simp [InvStore.setInv, InvStore.getInv]
  | cons kv rest ih =>
      obtain ⟨k0, v0⟩ := kv
      by_cases h : k0 = k <;>
        simp [InvStore.setInv, InvStore.getInv, h, ih]

/-! ## Claim theorems: submission endpoint -/

/-- C1: for every request that passes input validation, the POST
/api/invoices handler synchronously answers 202 with the freshly minted
operation id, and at that moment the registry entry under that id is
PENDING: `done = false`, event log `["received"]`, no result.  The
background routine has not run at all yet (its first statement awaits the
tool-server connection), so the id is returned before the scripted
tool-call sequence completes. -/
theorem submit_valid_accepted_pending (id : String) (req : InvoiceReq)
    (reg : Registry) (hv : validateInvoice req = true) :
    (submit id req reg).1 = SubmitResp.accepted id ∧
    Registry.getOp (submit id req reg).2 id =
      some { done := false, events := ["received"], result := none } := by
  simp [submit, hv, getOp_setOp_self]

/-- Witness for C1 at the literal valid request. -/
theorem submit_valid_accepted_pending_w :
    (submit "op1" { amount := 100, currency := "USD", customer_email := "a@b.com" } []).1
        = SubmitResp.accepted "op1" ∧
    Registry.getOp
        (submit "op1" { amount := 100, currency := "USD", customer_email := "a@b.com" } []).2
        "op1" = some { done := false, events := ["received"], result := none } :=
  submit_valid_accepted_pending "op1" _ [] (by decide)

/-- C6: for every request that fails input validation, the handler
answers 400 with the flattened (nonempty) field errors and the registry
is left exactly as it was: no id is minted and no operation is created. -/
theorem submit_invalid_rejected (id : String) (req : InvoiceReq) (reg : Registry)
    (h : validateInvoice req = false) :
    submit id req reg = (SubmitResp.badRequest (fieldErrors req), reg) ∧
    fieldErrors req ≠ [] := by
  refine ⟨by simp [submit, h], ?_⟩
  by_cases h1 : decide (0 ≤ req.amount) = true
  · by_cases h2 : (req.currency.length == 3) = true
    · by_cases h3 : validEmail req.customer_email = true
      · exfalso
        rw [validateInvoice, h1, h2, h3] at h
        simp at h
      · simp [fieldErrors, h1, h2, h3]
    · simp [fieldErrors, h1, h2]
  · simp [fieldErrors, h1]

/-- Witness for C6 at a strictly negative amount. -/
theorem submit_invalid_rejected_w :
    submit "op9" { amount := -5, currency := "USD", customer_email := "a@b.com" } [] =
      (SubmitResp.badRequest
        (fieldErrors { amount := -5, currency := "USD", customer_email := "a@b.com" }), []) ∧
    fieldErrors { amount := -5, currency := "USD", customer_email := "a@b.com" } ≠ [] :=
  submit_invalid_rejected "op9" _ [] (by decide)

/-- C10: the declared input contract takes `amount` nonnegative, not
strictly positive: with the other fields valid, validation succeeds
exactly when `0 ≤ amount` (so only strictly negative amounts are
rejected), and the boundary request with `amount = 0` is accepted — an
operation is created under the fresh id and the id is returned. -/
theorem zero_amount_accepted :
    (∀ a : Int,
      validateInvoice { amount := a, currency := "USD", customer_email := "a@b.com" } = true
        ↔ 0 ≤ a) ∧
    (submit "op1" { amount := 0, currency := "USD", customer_email := "a@b.com" } []).1
        = SubmitResp.accepted "op1" ∧
    Registry.getOp
        (submit "op1" { amount := 0, currency := "USD", customer_email := "a@b.com" } []).2
        "op1" = some { done := false, events := ["received"], result := none } := by
  refine ⟨?_, ?_, ?_⟩
  · intro a
    have h2 : (("USD" : String).length == 3) = true := by decide
    have h3 : validEmail "a@b.com" = true := by decide
    simp [validateInvoice, h2, h3]
  · simp [submit, show validateInvoice
      { amount := 0, currency := "USD", customer_email := "a@b.com" } = true by decide]
  · simp [submit, show validateInvoice
      { amount := 0, currency := "USD", customer_email := "a@b.com" } = true by decide,
      getOp_setOp_self]

/-! ## Claim theorems: billing tool idempotency -/

/-- C7: calling `billing.create_invoice` twice with the same idempotency
key leaves the invoice store unchanged on the second call, which returns
`reused: true` with the same `invoice_id` the first call returned; no
second invoice is created. -/
theorem create_invoice_idempotent (s0 : InvStore) (a a2 : Int)
    (c e c2 e2 k : String) :
    (create_invoice (create_invoice s0 a c e k).1 a2 c2 e2 k).1
        = (create_invoice s0 a c e k).1 ∧
    (create_invoice (create_invoice s0 a c e k).1 a2 c2 e2 k).2.getField "reused"
        = some (Json.bool true) ∧
    (create_invoice (create_invoice s0 a c e k).1 a2 c2 e2 k).2.getField "invoice_id"
        = some (Json.str k) ∧
    (create_invoice s0 a c e k).2.getField "invoice_id" = some (Json.str k) := by
  have hmem : ((create_invoice s0 a c e k).1.getInv k).isSome = true := by
    by_cases h : (s0.getInv k).isSome = true
    · simp [create_invoice, h]
    · simp [create_invoice, h, getInv_setInv_self]
  by_cases h : (s0.getInv k).isSome = true <;>
    simp [create_invoice, h, getInv_setInv_self, Json.getField, List.lookup]

/-! ## Claim theorems: progress publisher -/

/-- Is a message a terminal `result` message? -/
def isResultMsg : Msg → Bool
  | .result _ => true
  | _ => false

/-- Is a message one of the two shapes the spec describes for the feed? -/
def isProgressOrResult : Msg → Bool
  | .progress _ _ => true
  | .result _ => true
  | .ping _ => false

/-- Every message the tick loop itself emits is a progress or result
message (the `ping` is written before the loop starts). -/
theorem runTicks_msgs_shape (opId : String) (snaps : List Registry) :
    ∀ m ∈ (runTicks opId snaps).1, isProgressOrResult m = true := by
  induction snaps with
  | nil => simp [runTicks]
  | cons r rest ih =>
    cases hg : Registry.getOp r opId with
    | none => simpa [runTicks, hg] using ih
    | some p =>
      by_cases hd : p.done = true
      · simp [runTicks, hg, hd, isProgressOrResult]
      · have hd' : p.done = false := by simpa using hd
        intro m hm
        rw [runTicks] at hm
        simp [hg, hd'] at hm
        rcases hm with hm | hm
        · simp [hm, isProgressOrResult]
        · exact ih m hm

/-- C4: the tick loop emits at most one terminal result message; it
closes the channel precisely when some observed snapshot has the
operation done; and when it closes, the message sequence ends with the
final progress message followed by the single terminal result message
carrying that entry's result payload — nothing is emitted after it. -/
theorem ticks_terminal (opId : String) (snaps : List Registry) :
    ((runTicks opId snaps).1.countP (isResultMsg · = true) ≤ 1) ∧
    ((runTicks opId snaps).2 = true ↔
      ∃ r ∈ snaps, ∃ p, Registry.getOp r opId = some p ∧ p.done = true) ∧
    ((runTicks opId snaps).2 = true →
      ∃ pre p, (∀ m ∈ pre, isResultMsg m = false) ∧
        (∃ r ∈ snaps, Registry.getOp r opId = some p ∧ p.done = true) ∧
        (runTicks opId snaps).1 =
          pre ++ [Msg.progress p.events true, Msg.result p.result]) := by
  induction snaps with
  | nil => simp [runTicks]
  | cons r rest ih =>
    obtain ⟨ih1, ih2, ih3⟩ := ih
    cases hg : Registry.getOp r opId with
    | none =>
      have heq : runTicks opId (r :: rest) = runTicks opId rest := by
        rw [runTicks, hg]
      rw [heq]
      refine ⟨ih1, ?_, ?_⟩
      · rw [ih2]
        constructor
        · rintro ⟨x, hx, p, hp, hd⟩
          exact ⟨x, List.mem_cons_of_mem _ hx, p, hp, hd⟩
        · rintro ⟨x, hx, p, hp, hd⟩
          rcases List.mem_cons.mp hx with h | h
          · subst h; rw [hg] at hp; cases hp
          · exact ⟨x, h, p, hp, hd⟩
      · intro hc
        obtain ⟨pre, p, hpre, ⟨x, hx, hp, hd⟩, hmsgs⟩ := ih3 hc
        exact ⟨pre, p, hpre, ⟨x, List.mem_cons_of_mem _ hx, hp, hd⟩, hmsgs⟩
    | some p =>
      by_cases hd : p.done = true
      · have heq : runTicks opId (r :: rest) =
            ([Msg.progress p.events true, Msg.result p.result], true) := by
          rw [runTicks, hg]
          simp [hd]
        rw [heq]
        refine ⟨by simp [isResultMsg], ?_, ?_⟩
        · simp only [true_iff]
          exact ⟨r, List.mem_cons_self _ _, p, hg, hd⟩
        · intro _
          exact ⟨[], p, by simp, ⟨r, List.mem_cons_self _ _, hg, hd⟩, by simp⟩
      · have hd' : p.done = false := by simpa using hd
        have heq : runTicks opId (r :: rest) =
            (Msg.progress p.events false :: (runTicks opId rest).1,
             (runTicks opId rest).2) := by
          rw [runTicks, hg]
          simp [hd']
        rw [heq]
        refine ⟨?_, ?_, ?_⟩
        · simpa [isResultMsg] using ih1
        · rw [ih2]
          constructor
          · rintro ⟨x, hx, q, hq, hqd⟩
            exact ⟨x, List.mem_cons_of_mem _ hx, q, hq, hqd⟩
          · rintro ⟨x, hx, q, hq, hqd⟩
            rcases List.mem_cons.mp hx with h | h
            · subst h; rw [hg] at hq
              cases hq; rw [hd'] at hqd; cases hqd
            · exact ⟨x, h, q, hq, hqd⟩
        · intro hc
          obtain ⟨pre, q, hpre, ⟨x, hx, hq, hqd⟩, hmsgs⟩ := ih3 hc
          refine ⟨Msg.progress p.events false :: pre, q, ?_,
            ⟨x, List.mem_cons_of_mem _ hx, hq, hqd⟩, by simp [hmsgs]⟩
          intro m hm
          rcases List.mem_cons.mp hm with h | h
          · simp [h, isResultMsg]
          · exact hpre m h

/-- A registry snapshot in which operation `"op1"` is done. -/
def doneSnap : Registry :=
  [("op1", { done := true, events := ["received"], result := some Json.null })]

/-- Witness for C4: against a snapshot where the operation is done, the
tick loop closes the channel. -/
theorem ticks_terminal_w : (runTicks "op1" [doneSnap]).2 = true :=
  (ticks_terminal "op1" [doneSnap]).2.1.mpr
    ⟨doneSnap, by simp,
     { done := true, events := ["received"], result := some Json.null },
     by simp [Registry.getOp, doneSnap], rfl⟩

/-- C3 (divergence witness): subscribing with an operation id absent from
the registry never emits anything beyond the initial ping and never
closes the channel — each tick hits `if (!p) return;` — instead of
emitting an "unknown operation" error message and closing as the spec
requires. -/
theorem stream_unknown_id_hangs_silently :
    subscribe "ghost" 0 [[], [], []] = ([Msg.ping 0], false) := rfl

/-- C9 (counterexample): the handler's very first write is a `ping`
message, which is neither a progress message nor a terminal result
message, so not every message on the channel has one of the two claimed
shapes. -/
theorem subscribe_ping_counterexample :
    (subscribe "op1" 7 []).1 = [Msg.ping 7] ∧
    isProgressOrResult (Msg.ping 7) = false :=
  ⟨rfl, rfl⟩

/-- C9 (amended): the first message on the channel is the initial `ping`;
every message after it is either a progress message `{events, done}` or a
terminal result message. -/
theorem subscribe_msgs_shape (opId : String) (t : Int) (snaps : List Registry) :
    (subscribe opId t snaps).1.head? = some (Msg.ping t) ∧
    ∀ m ∈ (subscribe opId t snaps).1.tail, isProgressOrResult m = true := by
  refine ⟨rfl, ?_⟩
  intro m hm
  have : m ∈ (runTicks opId snaps).1 := by simpa [subscribe] using hm
  exact runTicks_msgs_shape opId snaps m this

/-- Witness for C9 (amended) at a pending snapshot: the head is the ping
and the one tick message is a progress message. -/
theorem subscribe_msgs_shape_w :
    (subscribe "op1" 0 [[("op1", { done := false, events := ["received"], result := none })]]).1.head?
        = some (Msg.ping 0) ∧
    isProgressOrResult (Msg.progress ["received"] false) = true :=
  ⟨(subscribe_msgs_shape "op1" 0 _).1,
   (subscribe_msgs_shape "op1" 0
      [[("op1", { done := false, events := ["received"], result := none })]]).2
     (Msg.progress ["received"] false)
     (by simp [subscribe, runTicks, Registry.getOp])⟩

/-! ## Claim theorems: the background routine

Every path of `runRoutine` appends a (path-dependent) sequence of event
labels to the operation's entry and then finalizes it exactly once.  The
lemmas below characterize the state trace of an arbitrary path. -/

/-- The successive registry states produced by appending each label in
turn. -/
def pushStates (reg : Registry) (opId : String) : List String → List Registry
  | [] => []
  | l :: ls =>
      let r := Registry.pushEvent reg opId l
      r :: pushStates r opId ls

theorem pushStates_length (reg : Registry) (opId : String) (ls : List String) :
    (pushStates reg opId ls).length = ls.length := by
  induction ls generalizing reg with
  | nil => rfl
  | cons l ls ih => simp [pushStates, ih]

/-- The full state trace of a routine path: the starting state, the state
after each event append, and the finalized state. -/
def routineTrace (reg : Registry) (opId : String) (labels : List String)
    (p : Json) : List Registry :=
  reg :: pushStates reg opId labels ++
    [Registry.finalize ((pushStates reg opId labels).getLastD reg) opId p]

theorem routineTrace_cons (reg : Registry) (opId l : String) (ls : List String)
    (p : Json) :
    routineTrace reg opId (l :: ls) p =
      reg :: routineTrace (Registry.pushEvent reg opId l) opId ls p := by
  simp only [routineTrace, pushStates, List.cons_append]
  rw [List.getLastD_cons]

/-- Running the label pushes on an entry `⟨false, E, none⟩` leaves the
last pre-finalization state with entry `⟨false, E ++ labels, none⟩`. -/
theorem pushStates_last_entry (opId : String) (labels : List String)
    (reg : Registry) (E : List String)
    (h : Registry.getOp reg opId = some ⟨false, E, none⟩) :
    Registry.getOp ((pushStates reg opId labels).getLastD reg) opId =
      some ⟨false, E ++ labels, none⟩ := by
  induction labels generalizing reg E with
  | nil => simpa using h
  | cons l ls ih =>
      have h1 := getOp_pushEvent_self reg opId l _ h
      have h2 := ih (Registry.pushEvent reg opId l) (E ++ [l]) h1
      simp only [pushStates]
      rw [List.getLastD_cons]
      simpa using h2

/-- The finalized entry of a routine path: done, the accumulated event
log, and the payload as result. -/
theorem routine_final_entry (opId : String) (labels : List String) (p : Json)
    (reg : Registry) (E : List String)
    (h : Registry.getOp reg opId = some ⟨false, E, none⟩) :
    Registry.getOp
        (Registry.finalize ((pushStates reg opId labels).getLastD reg) opId p)
        opId = some ⟨true, E ++ labels, some p⟩ :=
  getOp_finalize_self _ _ _ _ (pushStates_last_entry opId labels reg E h)

/-- Along any routine path the status flag is `false` at every state
except the last, where it is `true` (PENDING → DONE exactly once); the
event log only ever grows by suffixes (append-only, order preserved); and
the result is present exactly at the DONE state. -/
theorem routineTrace_props (opId : String) (labels : List String) (p : Json)
    (reg : Registry) (E : List String)
    (h : Registry.getOp reg opId = some ⟨false, E, none⟩) :
    ((routineTrace reg opId labels p).map
        (fun r => (Registry.getOp r opId).map OpEntry.done)
      = List.replicate (labels.length + 1) (some false) ++ [some true]) ∧
    List.Chain' (fun a b => b.take a.length = a)
      ((routineTrace reg opId labels p).map
        (fun r => ((Registry.getOp r opId).map OpEntry.events).getD [])) ∧
    (∀ r ∈ routineTrace reg opId labels p, ∀ e,
      Registry.getOp r opId = some e → (e.result.isSome = true ↔ e.done = true)) := by
  induction labels generalizing reg E with
  | nil =>
      have hf := getOp_finalize_self reg opId p _ h
      refine ⟨?_, ?_, ?_⟩
      · simp [routineTrace, pushStates, List.getLastD, h, hf]
      · simp [routineTrace, pushStates, List.getLastD, h, hf, List.take_length]
      · intro r hr e he
        simp [routineTrace, pushStates, List.getLastD] at hr
        rcases hr with hr | hr <;> subst hr
        · rw [h] at he; cases he; simp
        · rw [hf] at he; cases he; simp
  | cons l ls ih =>
      have h1 := getOp_pushEvent_self reg opId l _ h
      obtain ⟨ihd, ihc, ihr⟩ := ih (Registry.pushEvent reg opId l) (E ++ [l]) h1
      rw [routineTrace_cons]
      refine ⟨?_, ?_, ?_⟩
      · simp [List.map_cons, ihd, h, List.replicate_succ]
      · have hhead : ((Registry.getOp reg opId).map OpEntry.events).getD [] = E := by
          simp [h]
        have hne : routineTrace (Registry.pushEvent reg opId l) opId ls p =
            (Registry.pushEvent reg opId l) ::
              (pushStates (Registry.pushEvent reg opId l) opId ls ++
                [Registry.finalize
                  ((pushStates (Registry.pushEvent reg opId l) opId ls).getLastD
                    (Registry.pushEvent reg opId l)) opId p]) := by
          simp [routineTrace]
        rw [List.map_cons, hne, List.map_cons, List.chain'_cons]
        refine ⟨?_, ?_⟩
        · rw [hhead]
          simp [h1, List.take_left]
        · have := ihc
          rw [hne, List.map_cons] at this
          exact this
      · intro r hr e he
        rcases List.mem_cons.mp hr with hr | hr
        · subst hr; rw [h] at he; cases he; simp
        · exact ihr r hr e he

/-- Path characterization of the background routine: whatever the
environment does, the produced state sequence is a series of event
appends followed by exactly one finalization, and when the routine ends
in the catch with message `m` the finalization payload is the error
payload `{error: m or "unknown"}`. -/
theorem runRoutine_cases (opId : String) (req : InvoiceReq) (env : Env)
    (reg : Registry) :
    ∃ labels p,
      (runRoutine opId req env reg).1 =
        pushStates reg opId labels ++
          [Registry.finalize ((pushStates reg opId labels).getLastD reg) opId p] ∧
      (∀ m, (runRoutine opId req env reg).2 = RunOutcome.failed m →
        p = errPayload m) := by
  rcases hc : env.connect with m | u
  · exact ⟨[], errPayload m, by simp [runRoutine, hc, pushStates], fun m' hm' => by
      simp [runRoutine, hc] at hm'; rw [hm']⟩
  rcases hcc : env.createCall (createArgs req opId) with m | createResp
  · exact ⟨["connecting-mcp"], errPayload m,
      by simp [runRoutine, hc, hcc, pushStates, List.getLastD], fun m' hm' => by
        simp [runRoutine, hc, hcc] at hm'; rw [hm']⟩
  rcases hcon : createResp.content with _ | items
  · exact ⟨["connecting-mcp", "invoice-created"],
      errPayload "MCP error creating invoice",
      by simp [runRoutine, hc, hcc, hcon, pushStates, List.getLastD], fun m' hm' => by
        simp [runRoutine, hc, hcc, hcon] at hm'; rw [← hm']⟩
  rcases items with _ | ⟨item, rest⟩
  · exact ⟨["connecting-mcp", "invoice-created"],
      errPayload "MCP error creating invoice",
      by simp [runRoutine, hc, hcc, hcon, pushStates, List.getLastD], fun m' hm' => by
        simp [runRoutine, hc, hcc, hcon] at hm'; rw [← hm']⟩
  rcases hp1 : env.parse item.text with m | createResult
  · exact ⟨["connecting-mcp", "invoice-created"], errPayload m,
      by simp [runRoutine, hc, hcc, hcon, hp1, pushStates, List.getLastD], fun m' hm' => by
        simp [runRoutine, hc, hcc, hcon, hp1] at hm'; rw [hm']⟩
  by_cases hnull : isJsNull createResult = true
  · exact ⟨["connecting-mcp", "invoice-created"],
      errPayload "Cannot read properties of null",
      by simp [runRoutine, hc, hcc, hcon, hp1, hnull, pushStates, List.getLastD],
      fun m' hm' => by
        simp [runRoutine, hc, hcc, hcon, hp1, hnull] at hm'; rw [← hm']⟩
  rcases hgc : env.getCall (createResult.getField "invoice_id") with m | getResp
  · exact ⟨["connecting-mcp", "invoice-created"], errPayload m,
      by simp [runRoutine, hc, hcc, hcon, hp1, hnull, hgc, pushStates, List.getLastD],
      fun m' hm' => by
        simp [runRoutine, hc, hcc, hcon, hp1, hnull, hgc] at hm'; rw [hm']⟩
  rcases hgcon : getResp.content with _ | gitems
  · exact ⟨["connecting-mcp", "invoice-created", "invoice-fetched"], Json.null,
      by simp [runRoutine, hc, hcc, hcon, hp1, hnull, hgc, hgcon, pushStates, List.getLastD],
      fun m' hm' => by
        simp [runRoutine, hc, hcc, hcon, hp1, hnull, hgc, hgcon] at hm'⟩
  rcases gitems with _ | ⟨g, grest⟩
  · exact ⟨["connecting-mcp", "invoice-created", "invoice-fetched"],
      errPayload "Cannot read properties of undefined",
      by simp [runRoutine, hc, hcc, hcon, hp1, hnull, hgc, hgcon, pushStates, List.getLastD],
      fun m' hm' => by
        simp [runRoutine, hc, hcc, hcon, hp1, hnull, hgc, hgcon] at hm'; rw [← hm']⟩
  rcases hp2 : env.parse g.text with m | payload
  · exact ⟨["connecting-mcp", "invoice-created", "invoice-fetched"], errPayload m,
      by simp [runRoutine, hc, hcc, hcon, hp1, hnull, hgc, hgcon, hp2, pushStates,
        List.getLastD],
      fun m' hm' => by
        simp [runRoutine, hc, hcc, hcon, hp1, hnull, hgc, hgcon, hp2] at hm'; rw [hm']⟩
  · exact ⟨["connecting-mcp", "invoice-created", "invoice-fetched"], payload,
      by simp [runRoutine, hc, hcc, hcon, hp1, hnull, hgc, hgcon, hp2, pushStates,
        List.getLastD],
      fun m' hm' => by
        simp [runRoutine, hc, hcc, hcon, hp1, hnull, hgc, hgcon, hp2] at hm'⟩

/-- C2: for every submitted operation (a pending registry entry), the
background routine is a total function whose every path finalizes the
entry: the last state of its trace has `done = true` with a result
present — no error can leave it PENDING or escape the routine — and when
the routine ends in the catch with message `m`, the stored result is the
error payload `{error: m}` (`"unknown"` when the message is empty), an
object carrying the error message. -/
theorem routine_captures_errors (opId : String) (req : InvoiceReq) (env : Env)
    (reg : Registry) (E : List String)
    (h : Registry.getOp reg opId = some ⟨false, E, none⟩) :
    ∃ eF, Registry.getOp ((runRoutine opId req env reg).1.getLastD reg) opId
        = some eF ∧
      eF.done = true ∧ eF.result.isSome = true ∧
      (∀ m, (runRoutine opId req env reg).2 = RunOutcome.failed m →
        eF.result = some (Json.obj [("error", Json.str (errMsgOr m))])) := by
  obtain ⟨labels, p, hst, hfail⟩ := runRoutine_cases opId req env reg
  rw [hst, List.getLastD_concat]
  refine ⟨⟨true, E ++ labels, some p⟩,
    routine_final_entry opId labels p reg E h, rfl, rfl, ?_⟩
  intro m hm
  rw [hfail m hm]
  rfl

/-- An environment whose connection attempt fails with message "boom". -/
def failEnv : Env :=
  { connect := .error "boom"
    createCall := fun _ => .error "unreachable"
    getCall := fun _ => .error "unreachable"
    parse := fun _ => .error "unreachable" }

/-- A registry holding the single fresh pending operation "op1". -/
def pendingReg : Registry :=
  [("op1", { done := false, events := ["received"], result := none })]

/-- Witness for C2: a failing connection finalizes "op1" with the error
payload. -/
theorem routine_captures_errors_w :
    ∃ eF, Registry.getOp
        ((runRoutine "op1" { amount := 100, currency := "USD", customer_email := "a@b.com" }
          failEnv pendingReg).1.getLastD pendingReg) "op1" = some eF ∧
      eF.done = true ∧ eF.result.isSome = true ∧
      (∀ m, (runRoutine "op1" { amount := 100, currency := "USD", customer_email := "a@b.com" }
          failEnv pendingReg).2 = RunOutcome.failed m →
        eF.result = some (Json.obj [("error", Json.str (errMsgOr m))])) :=
  routine_captures_errors "op1" _ failEnv pendingReg ["received"] rfl

/-- C8: status is monotonic.  Along the whole mutation trace of an
operation (initial pending state, every event append, finalization) the
done flag reads `false` at every state but the last and `true` exactly at
the last — one PENDING → DONE transition and no reversal; the event log
at each state extends the previous one in place (append-only); and the
result is present exactly at the DONE state, so it is set at the moment
of the transition.  The trace ends at finalization: no later mutation of
the entry exists in the program. -/
theorem op_status_monotonic (opId : String) (req : InvoiceReq) (env : Env)
    (reg : Registry) (E : List String)
    (h : Registry.getOp reg opId = some ⟨false, E, none⟩) :
    ((reg :: (runRoutine opId req env reg).1).map
        (fun r => (Registry.getOp r opId).map OpEntry.done)
      = List.replicate ((reg :: (runRoutine opId req env reg).1).length - 1)
          (some false) ++ [some true]) ∧
    List.Chain' (fun a b => b.take a.length = a)
      ((reg :: (runRoutine opId req env reg).1).map
        (fun r => ((Registry.getOp r opId).map OpEntry.events).getD [])) ∧
    (∀ r ∈ reg :: (runRoutine opId req env reg).1, ∀ e,
      Registry.getOp r opId = some e → (e.result.isSome = true ↔ e.done = true)) := by
  obtain ⟨labels, p, hst, _⟩ := runRoutine_cases opId req env reg
  have htr : reg :: (runRoutine opId req env reg).1 = routineTrace reg opId labels p := by
    rw [hst]; rfl
  have hlen : (routineTrace reg opId labels p).length - 1 = labels.length + 1 := by
    simp [routineTrace, pushStates_length]
  rw [htr, hlen]
  exact routineTrace_props opId labels p reg E h

/-- Witness for C8 with the failing connection environment. -/
theorem op_status_monotonic_w :
    ((pendingReg :: (runRoutine "op1"
        { amount := 100, currency := "USD", customer_email := "a@b.com" }
        failEnv pendingReg).1).map
        (fun r => (Registry.getOp r "op1").map OpEntry.done)
      = List.replicate ((pendingReg :: (runRoutine "op1"
          { amount := 100, currency := "USD", customer_email := "a@b.com" }
          failEnv pendingReg).1).length - 1) (some false) ++ [some true]) ∧
    List.Chain' (fun a b => b.take a.length = a)
      ((pendingReg :: (runRoutine "op1"
          { amount := 100, currency := "USD", customer_email := "a@b.com" }
          failEnv pendingReg).1).map
        (fun r => ((Registry.getOp r "op1").map OpEntry.events).getD [])) ∧
    (∀ r ∈ pendingReg :: (runRoutine "op1"
        { amount := 100, currency := "USD", customer_email := "a@b.com" }
        failEnv pendingReg).1, ∀ e,
      Registry.getOp r "op1" = some e → (e.result.isSome = true ↔ e.done = true)) :=
  op_status_monotonic "op1" _ failEnv pendingReg ["received"] rfl

/-! ## Claim theorems: the literal scenario

The literal submission `{amount: 100, currency: "USD", customer_email:
"a@b.com"}` run against the real billing tool server: the environment
below dispatches the create call to `billing.create_invoice` on an empty
store and the get call to `billing.get_invoice` on the store the create
produced, and `parse` is `JSON.parse` restricted to the two response
texts actually produced (on which it inverts `JSON.stringify`). -/

/-- The literal scenario request. -/
def scenarioReq : InvoiceReq :=
  { amount := 100, currency := "USD", customer_email := "a@b.com" }

/-- The JSON the create handler answers for the scenario. -/
def scenarioCreateJson : Json := (create_invoice [] 100 "USD" "a@b.com" "op1").2

/-- The invoice store after the scenario's create call. -/
def scenarioStore : InvStore := (create_invoice [] 100 "USD" "a@b.com" "op1").1

/-- The JSON the get handler answers for the scenario. -/
def scenarioGetJson : Json := get_invoice scenarioStore "op1"

/-- JS `JSON.parse` as a finite inverse table of `JSON.stringify` for the
response texts occurring in a run (faithful on them, a SyntaxError
elsewhere). -/
def parseTable (tbl : List (String × Json)) : String → Except String Json :=
  fun s =>
    match tbl.lookup s with
    | some j => .ok j
    | none => .error "Unexpected token in JSON"

/-- The scenario environment: a healthy connection and the two billing
handlers. -/
def scenarioEnv : Env :=
  { connect := .ok ()
    createCall := fun args =>
      match args.getField "amount", args.getField "currency",
            args.getField "customer_email", args.getField "idempotency_key" with
      | some (.num a), some (.str c), some (.str e), some (.str k) =>
          .ok (toolOk (create_invoice [] a c e k).2)
      | _, _, _, _ => .error "Invalid arguments"
    getCall := fun invId =>
      match invId with
      | some (.str i) => .ok (toolOk (get_invoice scenarioStore i))
      | _ => .error "Invalid arguments"
    parse := parseTable
      [(Json.stringify scenarioCreateJson, scenarioCreateJson),
       (Json.stringify scenarioGetJson, scenarioGetJson)] }

/-- The registry right after the scenario submission. -/
def scenarioReg : Registry := (submit "op1" scenarioReq []).2

/-- The scenario's background routine run. -/
def scenarioRun : List Registry × RunOutcome :=
  runRoutine "op1" scenarioReq scenarioEnv scenarioReg

/-- The registry when the scenario's routine has finished. -/
def scenarioFinalReg : Registry := scenarioRun.1.getLastD []

/-- C5 (counterexample): in the literal scenario the final event log is
`["received", "connecting-mcp", "invoice-created", "invoice-fetched"]`;
it never contains `"calling:create"` (nor the other `calling:`/
`completed:` labels the claim lists), so the claim's expected event names
are not the ones the code produces. -/
theorem scenario_missing_calling_events :
    Registry.getOp scenarioFinalReg "op1" =
      some { done := true,
             events := ["received", "connecting-mcp", "invoice-created",
                        "invoice-fetched"],
             result := some scenarioGetJson } ∧
    "calling:create" ∉
      ["received", "connecting-mcp", "invoice-created", "invoice-fetched"] :=
  ⟨rfl, by decide⟩

/-- C5 (amended): the scenario submission returns id "op1"; the first
progress message includes (indeed is) the event log `["received"]`; the
routine succeeds, and the event log eventually holds, in order,
`"received", "connecting-mcp", "invoice-created", "invoice-fetched"`; the
terminal result message carries the fetched invoice payload, whose
`invoice.id` is the created resource's identifier "op1". -/
theorem scenario_run_actual :
    (submit "op1" scenarioReq []).1 = SubmitResp.accepted "op1" ∧
    (runTicks "op1" [scenarioReg]).1 = [Msg.progress ["received"] false] ∧
    scenarioRun.2 = RunOutcome.success ∧
    Registry.getOp scenarioFinalReg "op1" =
      some { done := true,
             events := ["received", "connecting-mcp", "invoice-created",
                        "invoice-fetched"],
             result := some scenarioGetJson } ∧
    (scenarioGetJson.getField "invoice").bind (fun j => j.getField "id")
      = some (Json.str "op1") ∧
    (runTicks "op1" [scenarioFinalReg]).1 =
      [Msg.progress ["received", "connecting-mcp", "invoice-created",
                     "invoice-fetched"] true,
       Msg.result (some scenarioGetJson)] :=
  ⟨rfl, rfl, rfl, rfl, rfl, rfl⟩

end McpApp
